import Mathlib

/-!
Verification of the bc-license-checker reconciliation program (src/main.rs).

The program reconciles a license report's granted object-ID ranges against an
inventory export: it parses `ObjectRange` entries from a semi-structured text
report (appended to a built-in seed), loads typed `Object`s from a worksheet,
marks as missing every licensed-type object in the band [50000, 99999] not
covered by any range, and reports the missing objects to the console and to a
CSV artifact.

The embedding below translates the Rust source shallowly: panics and `?`-style
error propagation both become `Except String` (either way the run aborts with a
non-zero outcome), machine integers `i64` become `Int` (the parsed values are
range-checked where the source's `str::parse::<i64>` would reject overflow),
and the I/O at the edges (file reads, the console, the CSV file) is modelled by
returning the produced text instead of writing it.
-/

/-- The closed enumeration of object types, from `enum ObjectType` in
src/main.rs (19 variants). -/
inductive ObjectType where
  | TableData
  | Table
  | Report
  | Codeunit
  | XMLport
  | MenuSuite
  | Page
  | Query
  | System
  | FieldNumber
  | PageExtension
  | TableExtension
  | Enum
  | EnumExtension
  | Profile
  | ProfileExtension
  | PermissionSet
  | PermissionSetExtension
  | ReportExtension
deriving DecidableEq, Inhabited

/-- `ObjectType::from` (src/main.rs lines 45-68): a chain of exact string
matches; the arm for `XMLport` accepts both spellings "XMLport" and "XMLPort";
any other name panics (`unimplemented!`), modelled as `none`. -/
def ObjectType.fromString? (object_type : String) : Option ObjectType :=
  if object_type = "TableData" then some .TableData
  else if object_type = "Table" then some .Table
  else if object_type = "Report" then some .Report
  else if object_type = "Codeunit" then some .Codeunit
  else if object_type = "XMLport" ∨ object_type = "XMLPort" then some .XMLport
  else if object_type = "MenuSuite" then some .MenuSuite
  else if object_type = "Page" then some .Page
  else if object_type = "Query" then some .Query
  else if object_type = "System" then some .System
  else if object_type = "FieldNumber" then some .FieldNumber
  else if object_type = "PageExtension" then some .PageExtension
  else if object_type = "TableExtension" then some .TableExtension
  else if object_type = "Enum" then some .Enum
  else if object_type = "EnumExtension" then some .EnumExtension
  else if object_type = "Profile" then some .Profile
  else if object_type = "ProfileExtension" then some .ProfileExtension
  else if object_type = "PermissionSet" then some .PermissionSet
  else if object_type = "PermissionSetExtension" then some .PermissionSetExtension
  else if object_type = "ReportExtension" then some .ReportExtension
  else none

/-- `ObjectType::to_string` (src/main.rs lines 70-93); the capital P in
"XMLPort" is intentional in the source. -/
def ObjectType.toString : ObjectType → String
  | .TableData => "TableData"
  | .Table => "Table"
  | .Report => "Report"
  | .Codeunit => "Codeunit"
  | .XMLport => "XMLPort"
  | .MenuSuite => "MenuSuite"
  | .Page => "Page"
  | .Query => "Query"
  | .System => "System"
  | .FieldNumber => "FieldNumber"
  | .PageExtension => "PageExtension"
  | .TableExtension => "TableExtension"
  | .Enum => "Enum"
  | .EnumExtension => "EnumExtension"
  | .Profile => "Profile"
  | .ProfileExtension => "ProfileExtension"
  | .PermissionSet => "PermissionSet"
  | .PermissionSetExtension => "PermissionSetExtension"
  | .ReportExtension => "ReportExtension"

/-- `ObjectType::is_licensed` (src/main.rs lines 95-118). -/
def ObjectType.is_licensed : ObjectType → Bool
  | .TableData | .Report | .Codeunit | .XMLport | .Query | .Page => true
  | .Table | .MenuSuite | .System | .FieldNumber | .PageExtension
  | .TableExtension | .Enum | .EnumExtension | .Profile | .ProfileExtension
  | .PermissionSet | .PermissionSetExtension | .ReportExtension => false

/-- `struct ObjectRange` (src/main.rs lines 121-128): a licensed range; `i64`
fields become `Int`. -/
structure ObjectRange where
  object_type : ObjectType
  quantity : Int
  range_from : Int
  range_to : Int
  permission : String
deriving DecidableEq

/-- `ObjectRange::new` (src/main.rs lines 130-140): parses the type name with
`ObjectType::from` (whose panic on an unknown name is modelled as `none`) and
derives `quantity = range_to - range_from + 1`; the bounds are stored as
given, without any validation. -/
def ObjectRange.new (object_type : String) (range_from range_to : Int)
    (permission : String) : Option ObjectRange :=
  (ObjectType.fromString? object_type).map fun t =>
    { object_type := t
      quantity := range_to - range_from + 1
      range_from := range_from
      range_to := range_to
      permission := permission }

/-- `struct Object` (src/main.rs lines 142-147): one inventory object. -/
structure Object where
  object_type : ObjectType
  id : Int
  name : String
deriving DecidableEq

/-- `Object::new` (src/main.rs lines 149-157); the panic of `ObjectType::from`
on an unknown type name is modelled as `none`. -/
def Object.new (object_type : String) (id : Int) (name : String) :
    Option Object :=
  (ObjectType.fromString? object_type).map fun t =>
    { object_type := t, id := id, name := name }

/-- The initial contents of `licensed_object_ranges` (src/main.rs lines
199-206): the six built-in seed ranges, constructed through `ObjectRange::new`
exactly as in the source. All six type names parse, so `reduceOption` drops
nothing (the theorem for C5 exhibits the six entries explicitly). -/
def initialRanges : List ObjectRange :=
  [ObjectRange.new "TableData" 50000 50009 "RIMDX",
   ObjectRange.new "Page" 50000 50099 "X",
   ObjectRange.new "Report" 50000 50099 "X",
   ObjectRange.new "Codeunit" 50000 50099 "X",
   ObjectRange.new "XMLPort" 50000 50099 "X",
   ObjectRange.new "Query" 50000 50099 "X"].reduceOption

/-- Helper for `splitWhitespace`: walk the characters, accumulating the
current (reversed) word, emitting it when whitespace or the end is reached. -/
def splitWhitespaceAux : List Char → List Char → List String
  | [], cur => if cur = [] then [] else [String.mk cur.reverse]
  | c :: cs, cur =>
      if c.isWhitespace then
        if cur = [] then splitWhitespaceAux cs []
        else String.mk cur.reverse :: splitWhitespaceAux cs []
      else splitWhitespaceAux cs (c :: cur)

/-- Rust's `str::split_whitespace` on a line (src/main.rs line 225): the
non-empty maximal runs of non-whitespace characters, in order. -/
def splitWhitespace (s : String) : List String :=
  splitWhitespaceAux s.data []

/-- Helper for `parseI64`: the value of a non-empty all-digit character list
read in base 10. -/
def natFromDigits? (cs : List Char) : Option Nat :=
  if cs = [] then none
  else
    cs.foldl
      (fun acc c =>
        acc.bind (fun n =>
          if c.isDigit then some (n * 10 + (c.toNat - 48)) else none))
      (some 0)

/-- Rust's `str::parse::<i64>` (src/main.rs lines 231-232): an optional sign
followed by at least one digit and nothing else, rejecting values outside the
`i64` range. -/
def parseI64 (s : String) : Except String Int :=
  let v? : Option Int :=
    match s.data with
    | '+' :: rest => (natFromDigits? rest).map (fun n => (n : Int))
    | '-' :: rest => (natFromDigits? rest).map (fun n => -(n : Int))
    | cs => (natFromDigits? cs).map (fun n => (n : Int))
  match v? with
  | some v =>
      if -9223372036854775808 ≤ v ∧ v ≤ 9223372036854775807 then .ok v
      else .error "number too large to fit in target type"
  | none => .error "invalid digit found in string"

/-- The body of the license parsing loop (src/main.rs lines 225-237) applied
to the whitespace tokens of one line: exactly five tokens are required (the
`unimplemented!` panic on any other shape is modelled as an error), the second
(quantity) token is ignored, the third and fourth are parsed as `i64` (a parse
failure propagates via `?`), and `ObjectRange::new` is applied (its panic on
an unknown type name is modelled as an error). -/
def parseTokens (ws : List String) : Except String ObjectRange :=
  match ws with
  | [object_type, _, range_from, range_to, permission] => do
      let f ← parseI64 range_from
      let t ← parseI64 range_to
      match ObjectRange.new object_type f t permission with
      | some r => .ok r
      | none => .error ("Unknown object type " ++ object_type ++ "!")
  | _ => .error "Unimplemented license format."

/-- One line of the license data window (src/main.rs lines 225-237). -/
def parseDataLine (line : String) : Except String ObjectRange :=
  parseTokens (splitWhitespace line)

/-- The iterator chain of src/main.rs lines 215-224: skip lines while they
differ from "Object Assignment", skip 5 lines, take lines while they differ
from "Module Objects and Permissions", drop blank lines. -/
def windowOf (ls : List String) : List String :=
  ((((ls.dropWhile (fun p => p ≠ "Object Assignment")).drop 5).takeWhile
    (fun p => p ≠ "Module Objects and Permissions")).filter (fun p => p ≠ ""))

/-- The license parsing loop of src/main.rs lines 220-238: starting from the
seed `initialRanges`, push one parsed `ObjectRange` per window line; any line
failure aborts. -/
def buildRanges (ls : List String) : Except String (List ObjectRange) :=
  (windowOf ls).foldlM
    (fun acc line => (parseDataLine line).map (fun r => acc ++ [r])) initialRanges

/-- The parsed entries alone, without the seed, one per window line in file
order (this is the spec's description of the LicenseReportParser output; the
theorem for C5 relates it to `buildRanges`). -/
def parsedRanges (ls : List String) : Except String (List ObjectRange) :=
  (windowOf ls).mapM parseDataLine

/-- One worksheet cell, modelling the calamine `DataType` variants the program
inspects (src/main.rs lines 245-255): a string, an integer, a float, or
anything else (modelled as `empty`). -/
inductive Cell where
  | str (v : String)
  | int (v : Int)
  | float (v : Float)
  | empty

/-- Truncation of a float toward zero into the `i64` range, modelling Rust's
`as i64` cast (src/main.rs line 251) for finite in-range values; NaN maps to 0
as in Rust. (Exact saturation behaviour at the `i64` boundaries is not needed
by any claim and is approximated by the `UInt64` conversions used here.) -/
def floatToI64 (v : Float) : Int :=
  if v ≥ 0 then (v.toUInt64.toNat : Int) else -((-v).toUInt64.toNat : Int)

/-- The calamine `DataType` `Display` used via `to_string()` on the type and
name cells (src/main.rs lines 247 and 255). -/
def Cell.toString : Cell → String
  | .str v => v
  | .int v => Int.repr v
  | .float v => v.toString
  | .empty => ""

/-- The id coercion of src/main.rs lines 248-254: an integer cell is used
as-is, a float cell is truncated toward zero, anything else panics (modelled
as `none`). -/
def Cell.toId? : Cell → Option Int
  | .int v => some v
  | .float v => some (floatToI64 v)
  | _ => none

/-- The inventory loading of src/main.rs lines 243-261, given the result of
`worksheet_range` for the selected sheet: `none` or an error slips through the
`if let Some(Ok(r))` silently, leaving the object list empty; otherwise the
first row is skipped and each remaining row must have at least three cells
(type, id, name; the `unimplemented!` panics on a short row or a non-numeric
id are modelled as errors, as is the `ObjectType::from` panic inside
`Object::new`). -/
def loadObjects (wsRange : Option (Except String (List (List Cell)))) :
    Except String (List Object) :=
  match wsRange with
  | some (.ok r) =>
      (r.drop 1).foldlM
        (fun acc row =>
          match row with
          | object_type :: object_id :: name :: _ =>
              match object_id.toId? with
              | some id =>
                  match Object.new object_type.toString id name.toString with
                  | some o => .ok (acc ++ [o])
                  | none =>
                      .error ("Unknown object type " ++ object_type.toString ++ "!")
              | none =>
                  .error ("Object id is not a number " ++ object_id.toString ++ "!")
          | _ => .error "Unimplemented row format.")
        []
  | _ => .ok []

/-- Rust's `Iterator::position` (src/main.rs line 270): the index of the first
element satisfying the predicate. -/
def position (p : α → Bool) : List α → Option Nat
  | [] => none
  | a :: l => if p a then some 0 else (position p l).map (fun i => i + 1)

/-- The closure of src/main.rs lines 270-272: range `e` covers object
`object` when the types are equal and the inclusive bounds contain the id
(`RangeInclusive::contains`). -/
def rangeCovers (e : ObjectRange) (object : Object) : Bool :=
  decide (e.object_type = object.object_type)
    && (decide (e.range_from ≤ object.id) && decide (object.id ≤ e.range_to))

/-- The reconciliation loop of src/main.rs lines 263-280: keep the objects of
licensed types whose id lies in `checked_range = 50000..=99999`, and of those
keep the ones for which `position` finds no covering range; the result is
`missing_objects` in inventory order. -/
def reconcile (ranges : List ObjectRange) (objects : List Object) :
    List Object :=
  ((objects.filter (fun e => e.object_type.is_licensed)).filter
      (fun e => decide (50000 ≤ e.id) && decide (e.id ≤ 99999))).filter
    (fun object => (position (fun e => rangeCovers e object) ranges).isNone)

/-- The observable output of the run: the console lines printed, and the CSV
artifact (its path and its lines) when one is written. -/
structure RunOutput where
  console : List String
  csvFile : Option (String × List String)
deriving DecidableEq

/-- The reporting stage of src/main.rs lines 284-327: with no missing objects,
print one notice and write nothing; otherwise print one line per missing
object, write the fixed CSV header and one comma-joined row per missing
object to "missing-permissions.csv", and print a final notice. The row's
quantity field is `object.id - object.id + 1` as in the source. -/
def report (missing_objects : List Object) : RunOutput :=
  if missing_objects.isEmpty then
    { console := ["No missing objects found!"], csvFile := none }
  else
    { console :=
        missing_objects.map (fun object =>
          Int.repr object.id ++ " " ++ object.object_type.toString ++ "\t"
            ++ object.name)
          ++ ["Wrote missing permissions to missing-permissions.csv"]
      csvFile := some ("missing-permissions.csv",
        "ObjectType,FromObjectID,ToObjectID,Read,Insert,Modify,Delete,Execute,AvailableRange,Used,ObjectTypeRemaining,CompanyObjectPermissionID"
          :: missing_objects.map (fun object =>
            String.intercalate ","
              [object.object_type.toString, Int.repr object.id,
               Int.repr object.id, "Direct", "Direct", "Direct", "Direct",
               "Direct", "50000 - 99999",
               Int.repr (object.id - object.id + 1), "0", "0"])) }

/-- The whole run of `main` (src/main.rs lines 196-332) after the license file
has been read into lines and the workbook opened: parse the license ranges,
load the inventory, reconcile, report. Any modelled panic or propagated error
is a non-zero abort (`Except.error`). -/
def runProgram (licenseLines : List String)
    (wsRange : Option (Except String (List (List Cell)))) :
    Except String RunOutput := do
  let ranges ← buildRanges licenseLines
  let objects ← loadObjects wsRange
  .ok (report (reconcile ranges objects))

/-- Decidable equality for `Except`, used to evaluate the pipeline on concrete
inputs via `decide`. -/
instance {ε α : Type} [DecidableEq ε] [DecidableEq α] :
    DecidableEq (Except ε α) := fun x y =>
  match x, y with
  | .ok a, .ok b =>
      if h : a = b then .isTrue (congrArg Except.ok h)
      else .isFalse (fun hh => h (Except.ok.inj hh))
  | .error e, .error f =>
      if h : e = f then .isTrue (congrArg Except.error h)
      else .isFalse (fun hh => h (Except.error.inj hh))
  | .ok _, .error _ => .isFalse (fun hh => Except.noConfusion hh)
  | .error _, .ok _ => .isFalse (fun hh => Except.noConfusion hh)

/-- Reduction of `Except` bind on a success value. -/
theorem except_bind_ok {ε α β : Type} (a : α) (k : α → Except ε β) :
    ((Except.ok a : Except ε α) >>= k) = k a := rfl

/-- Reduction of `Except` bind on an error. -/
theorem except_bind_error {ε α β : Type} (e : ε) (k : α → Except ε β) :
    ((Except.error e : Except ε α) >>= k) = Except.error e := rfl

/-- Reduction of `Except.map` on a success value. -/
theorem except_map_ok {ε α β : Type} (f : α → β) (a : α) :
    (Except.ok a : Except ε α).map f = Except.ok (f a) := rfl

/-- Reduction of `Except.map` on an error. -/
theorem except_map_error {ε α β : Type} (f : α → β) (e : ε) :
    (Except.error e : Except ε α).map f = Except.error e := rfl

/-- Reduction of `pure` in the `Except` monad. -/
theorem except_pure_eq_ok {ε α : Type} (a : α) :
    (pure a : Except ε α) = Except.ok a := rfl

/-- `position` finds nothing exactly when no element satisfies the
predicate. -/
theorem position_eq_none_iff {α : Type} (p : α → Bool) (l : List α) :
    position p l = none ↔ ∀ x ∈ l, p x = false := by
  induction l with
  | nil => simp [position]
  | cons a l ih =>
      by_cases ha : p a = true
      · simp [position, ha]
      · have ha' : p a = false := Bool.eq_false_iff.mpr ha
        simp [position, ha', ih, Option.map_eq_none']

/-- `position` returns the index of the first element satisfying the
predicate: the element at the returned index satisfies it and every earlier
element does not. -/
theorem position_eq_some_first {α : Type} (p : α → Bool) (l : List α)
    (i : Nat) (h : position p l = some i) :
    ∃ r, l[i]? = some r ∧ p r = true ∧
      ∀ j, j < i → ∀ r', l[j]? = some r' → p r' = false := by
  induction l generalizing i with
  | nil => cases h
  | cons a l ih =>
      by_cases ha : p a = true
      · simp only [position, if_pos ha] at h
        injection h with h
        subst h
        exact ⟨a, List.getElem?_cons_zero, ha,
          fun j hj => absurd hj (Nat.not_lt_zero j)⟩
      · have ha' : p a = false := Bool.eq_false_iff.mpr ha
        simp only [position, if_neg ha] at h
        rcases Option.map_eq_some'.mp h with ⟨i', hi', rfl⟩
        obtain ⟨r, hr, hpr, hfirst⟩ := ih i' hi'
        refine ⟨r, by simpa using hr, hpr, ?_⟩
        intro j hj r' hr'
        cases j with
        | zero =>
            have : r' = a := by
              rw [List.getElem?_cons_zero] at hr'
              injection hr' with hr'
              exact hr'.symm
            rw [this]
            exact ha'
        | succ j =>
            refine hfirst j (by omega) r' ?_
            simpa using hr'

/-- Dropping-while over an append whose left part satisfies the predicate
everywhere continues into the right part. -/
theorem dropWhile_append_of_all {α : Type} (p : α → Bool) (pre rest : List α)
    (h : ∀ x ∈ pre, p x = true) :
    (pre ++ rest).dropWhile p = rest.dropWhile p := by
  induction pre with
  | nil => rfl
  | cons a l ih =>
      have ha : p a = true := h a (List.mem_cons_self a l)
      rw [List.cons_append, List.dropWhile_cons, if_pos ha]
      exact ih (fun x hx => h x (List.mem_cons_of_mem a hx))

/-- The push-style `foldlM` of the license loop equals `mapM` followed by
appending to the accumulator. -/
theorem foldlM_push_eq_mapM {ε α β : Type} (f : α → Except ε β) (l : List α)
    (acc : List β) :
    l.foldlM (fun a x => (f x).map (fun r => a ++ [r])) acc
      = (l.mapM f).map (fun rs => acc ++ rs) := by
  induction l generalizing acc with
  | nil =>
      rw [List.foldlM_nil, List.mapM_nil, except_pure_eq_ok, except_pure_eq_ok,
        except_map_ok, List.append_nil]
  | cons a l ih =>
      rw [List.foldlM_cons, List.mapM_cons]
      cases hf : f a with
      | error e =>
          rw [except_map_error, except_bind_error, except_bind_error,
            except_map_error]
      | ok b =>
          rw [except_map_ok, except_bind_ok, except_bind_ok, ih]
          cases hm : l.mapM f with
          | error e => rw [except_map_error, except_bind_error, except_map_error]
          | ok xs =>
              rw [except_map_ok, except_bind_ok, except_pure_eq_ok,
                except_map_ok]
              simp [List.append_assoc]

/-- `mapM` over `Except` fails whenever some element fails. -/
theorem mapM_error_of_mem {ε α β : Type} (f : α → Except ε β) (l : List α)
    (h : ∃ x ∈ l, ∃ msg, f x = Except.error msg) :
    ∃ msg, l.mapM f = Except.error msg := by
  induction l with
  | nil =>
      rcases h with ⟨x, hx, _⟩
      cases hx
  | cons a l ih =>
      rw [List.mapM_cons]
      rcases h with ⟨x, hx, msg, hfx⟩
      cases hf : f a with
      | error e =>
          rw [except_bind_error]
          exact ⟨e, rfl⟩
      | ok b =>
          rw [except_bind_ok]
          rcases List.mem_cons.mp hx with rfl | hx'
          · rw [hf] at hfx
            cases hfx
          · obtain ⟨m, hm⟩ := ih ⟨x, hx', msg, hfx⟩
            rw [hm, except_bind_error]
            exact ⟨m, rfl⟩

/-- Every element of a successful `mapM` over `Except` is the image of some
input element. -/
theorem mapM_ok_mem {ε α β : Type} (f : α → Except ε β) (l : List α)
    (ys : List β) (h : l.mapM f = Except.ok ys) :
    ∀ y ∈ ys, ∃ x ∈ l, f x = Except.ok y := by
  induction l generalizing ys with
  | nil =>
      rw [List.mapM_nil] at h
      injection h with h
      subst h
      intro y hy
      cases hy
  | cons a l ih =>
      rw [List.mapM_cons] at h
      cases hf : f a with
      | error e =>
          rw [hf, except_bind_error] at h
          cases h
      | ok b =>
          rw [hf, except_bind_ok] at h
          cases hm : l.mapM f with
          | error e =>
              rw [hm, except_bind_error] at h
              cases h
          | ok xs =>
              rw [hm, except_bind_ok] at h
              injection h with h
              subst h
              intro y hy
              rcases List.mem_cons.mp hy with rfl | hy'
              · exact ⟨a, List.mem_cons_self a l, hf⟩
              · obtain ⟨x, hx, hfx⟩ := ih xs hm y hy'
                exact ⟨x, List.mem_cons_of_mem a hx, hfx⟩

/-- Inverse characterization of `ObjectType.fromString?`: a successful parse
comes either from the canonical display name of the result or from the
alternative spelling "XMLport". -/
theorem ObjectType.fromString?_inv (s : String) (t : ObjectType)
    (h : ObjectType.fromString? s = some t) :
    s = t.toString ∨ (s = "XMLport" ∧ t = ObjectType.XMLport) := by
  unfold ObjectType.fromString? at h
  by_cases c1 : s = "TableData"
  · rw [if_pos c1] at h; cases h; exact Or.inl c1
  rw [if_neg c1] at h
  by_cases c2 : s = "Table"
  · rw [if_pos c2] at h; cases h; exact Or.inl c2
  rw [if_neg c2] at h
  by_cases c3 : s = "Report"
  · rw [if_pos c3] at h; cases h; exact Or.inl c3
  rw [if_neg c3] at h
  by_cases c4 : s = "Codeunit"
  · rw [if_pos c4] at h; cases h; exact Or.inl c4
  rw [if_neg c4] at h
  by_cases c5 : s = "XMLport" ∨ s = "XMLPort"
  · rw [if_pos c5] at h
    cases h
    rcases c5 with rfl | rfl
    · exact Or.inr ⟨rfl, rfl⟩
    · exact Or.inl rfl
  rw [if_neg c5] at h
  by_cases c6 : s = "MenuSuite"
  · rw [if_pos c6] at h; cases h; exact Or.inl c6
  rw [if_neg c6] at h
  by_cases c7 : s = "Page"
  · rw [if_pos c7] at h; cases h; exact Or.inl c7
  rw [if_neg c7] at h
  by_cases c8 : s = "Query"
  · rw [if_pos c8] at h; cases h; exact Or.inl c8
  rw [if_neg c8] at h
  by_cases c9 : s = "System"
  · rw [if_pos c9] at h; cases h; exact Or.inl c9
  rw [if_neg c9] at h
  by_cases c10 : s = "FieldNumber"
  · rw [if_pos c10] at h; cases h; exact Or.inl c10
  rw [if_neg c10] at h
  by_cases c11 : s = "PageExtension"
  · rw [if_pos c11] at h; cases h; exact Or.inl c11
  rw [if_neg c11] at h
  by_cases c12 : s = "TableExtension"
  · rw [if_pos c12] at h; cases h; exact Or.inl c12
  rw [if_neg c12] at h
  by_cases c13 : s = "Enum"
  · rw [if_pos c13] at h; cases h; exact Or.inl c13
  rw [if_neg c13] at h
  by_cases c14 : s = "EnumExtension"
  · rw [if_pos c14] at h; cases h; exact Or.inl c14
  rw [if_neg c14] at h
  by_cases c15 : s = "Profile"
  · rw [if_pos c15] at h; cases h; exact Or.inl c15
  rw [if_neg c15] at h
  by_cases c16 : s = "ProfileExtension"
  · rw [if_pos c16] at h; cases h; exact Or.inl c16
  rw [if_neg c16] at h
  by_cases c17 : s = "PermissionSet"
  · rw [if_pos c17] at h; cases h; exact Or.inl c17
  rw [if_neg c17] at h
  by_cases c18 : s = "PermissionSetExtension"
  · rw [if_pos c18] at h; cases h; exact Or.inl c18
  rw [if_neg c18] at h
  by_cases c19 : s = "ReportExtension"
  · rw [if_pos c19] at h; cases h; exact Or.inl c19
  rw [if_neg c19] at h
  exact Option.noConfusion h

/-- C10: `ObjectType::from` inverts `to_string` on every variant; the two
spellings "XMLport" and "XMLPort" both parse to the variant `XMLport`, whose
display string is "XMLPort" (so the string-level round trip holds for every
canonical name, while "XMLport" is normalized to "XMLPort"); every string that
is neither a canonical name nor "XMLport" fails to parse (a panic in the
source, `none` here). -/
theorem object_type_round_trip :
    (∀ t : ObjectType, ObjectType.fromString? t.toString = some t)
    ∧ ObjectType.fromString? "XMLport" = some ObjectType.XMLport
    ∧ ObjectType.fromString? "XMLPort" = some ObjectType.XMLport
    ∧ ObjectType.XMLport.toString = "XMLPort"
    ∧ (∀ s t, ObjectType.fromString? s = some t →
        s = t.toString ∨ (s = "XMLport" ∧ t = ObjectType.XMLport))
    ∧ (∀ s : String, (∀ t : ObjectType, s ≠ t.toString) → s ≠ "XMLport" →
        ObjectType.fromString? s = none) := by
  refine ⟨by intro t; cases t <;> rfl, by rfl, by rfl, by rfl,
    ObjectType.fromString?_inv, ?_⟩
  intro s hcanon hxml
  cases hsome : ObjectType.fromString? s with
  | none => rfl
  | some t =>
      rcases ObjectType.fromString?_inv s t hsome with h | ⟨h, _⟩
      · exact absurd h (hcanon t)
      · exact absurd h hxml

/-- Witness for `object_type_round_trip`: the unrecognized-name clause applied
to the concrete string "Tabledata". -/
theorem object_type_round_trip_witness :
    ObjectType.fromString? "Tabledata" = none :=
  object_type_round_trip.2.2.2.2.2 "Tabledata"
    (by intro t; cases t <;> decide) (by decide)

/-- A line whose whitespace tokenization does not have exactly five tokens is
rejected by the data-line parser with an error. -/
theorem parseTokens_error_of_length (ws : List String) (h : ws.length ≠ 5) :
    ∃ msg, parseTokens ws = Except.error msg := by
  match ws with
  | [] => exact ⟨_, rfl⟩
  | [a] => exact ⟨_, rfl⟩
  | [a, b] => exact ⟨_, rfl⟩
  | [a, b, c] => exact ⟨_, rfl⟩
  | [a, b, c, d] => exact ⟨_, rfl⟩
  | [a, b, c, d, e] => exact absurd rfl h
  | a :: b :: c :: d :: e :: f :: rest => exact ⟨_, rfl⟩

/-- Every `ObjectRange` produced by a successful `parseTokens` satisfies the
derived-quantity identity. -/
theorem parseTokens_ok_quantity (ws : List String) (r : ObjectRange)
    (h : parseTokens ws = Except.ok r) :
    r.quantity = r.range_to - r.range_from + 1 := by
  match ws with
  | [] => exact Except.noConfusion h
  | [a] => exact Except.noConfusion h
  | [a, b] => exact Except.noConfusion h
  | [a, b, c] => exact Except.noConfusion h
  | [a, b, c, d] => exact Except.noConfusion h
  | a :: b :: c :: d :: e :: f :: rest => exact Except.noConfusion h
  | [a, b, c, d, e] =>
      simp only [parseTokens] at h
      cases hf : parseI64 c with
      | error e1 => rw [hf, except_bind_error] at h; exact Except.noConfusion h
      | ok fv =>
          rw [hf, except_bind_ok] at h
          cases ht : parseI64 d with
          | error e2 =>
              rw [ht, except_bind_error] at h
              exact Except.noConfusion h
          | ok tv =>
              rw [ht, except_bind_ok] at h
              cases hn : ObjectRange.new a fv tv e with
              | none => rw [hn] at h; exact Except.noConfusion h
              | some r' =>
                  rw [hn] at h
                  injection h with h
                  subst h
                  rcases Option.map_eq_some'.mp hn with ⟨ty, _, hr'⟩
                  subst hr'
                  rfl

/-- C3: the license parser skips every line strictly before the first line
equal to "Object Assignment"; from that point it skips five lines (the marker
line itself and the four lines after it, `skip(5)` on the iterator positioned
at the marker); it then consumes lines until one equals "Module Objects and
Permissions", ignoring blank lines in that window; each remaining line is
parsed (in order) as five whitespace tokens — type name, ignored quantity,
range-from, range-to, permission codes — and any line whose token count is not
five makes the whole parse a fatal error. -/
theorem license_parser_window_tokenization :
    (∀ (pre : List String) (l1 l2 l3 l4 : String) (body : List String),
        "Object Assignment" ∉ pre →
        buildRanges (pre ++ "Object Assignment" :: l1 :: l2 :: l3 :: l4 :: body)
          = (((body.takeWhile
                  (fun p => p ≠ "Module Objects and Permissions")).filter
                (fun p => p ≠ "")).mapM parseDataLine).map
              (fun parsed => initialRanges ++ parsed))
    ∧ (∀ line, (splitWhitespace line).length ≠ 5 →
        ∃ msg, parseDataLine line = Except.error msg)
    ∧ (∀ a b b' c d e,
        parseTokens [a, b, c, d, e] = parseTokens [a, b', c, d, e])
    ∧ (∀ ls, (∃ line ∈ windowOf ls, (splitWhitespace line).length ≠ 5) →
        ∃ msg, buildRanges ls = Except.error msg) := by
  refine ⟨?_, ?_, ?_, ?_⟩
  · intro pre l1 l2 l3 l4 body hpre
    have hall : ∀ x ∈ pre, decide (x ≠ "Object Assignment") = true :=
      fun x hx => decide_eq_true (fun e => hpre (e ▸ hx))
    have hwin :
        windowOf (pre ++ "Object Assignment" :: l1 :: l2 :: l3 :: l4 :: body)
          = (body.takeWhile
              (fun p => p ≠ "Module Objects and Permissions")).filter
              (fun p => p ≠ "") := by
      unfold windowOf
      rw [dropWhile_append_of_all _ _ _ hall, List.dropWhile_cons,
        if_neg (by decide)]
      rfl
    unfold buildRanges
    rw [hwin, foldlM_push_eq_mapM]
  · intro line h
    exact parseTokens_error_of_length _ h
  · intro a b b' c d e
    rfl
  · rintro ls ⟨line, hline, hlen⟩
    unfold buildRanges
    rw [foldlM_push_eq_mapM]
    obtain ⟨m, hm⟩ := mapM_error_of_mem parseDataLine (windowOf ls)
      ⟨line, hline, parseTokens_error_of_length _ hlen⟩
    rw [hm, except_map_error]
    exact ⟨m, rfl⟩

/-- Witness for `license_parser_window_tokenization`: the window clause applied
to a concrete license text. -/
theorem license_parser_window_tokenization_witness :
    buildRanges ["x", "Object Assignment", "a", "b", "c", "d",
        "Codeunit 1 60000 60009 X", "", "Module Objects and Permissions",
        "junk"]
      = (((["Codeunit 1 60000 60009 X", "", "Module Objects and Permissions",
              "junk"].takeWhile
              (fun p => p ≠ "Module Objects and Permissions")).filter
            (fun p => p ≠ "")).mapM parseDataLine).map
          (fun parsed => initialRanges ++ parsed) :=
  license_parser_window_tokenization.1 ["x"] "a" "b" "c" "d"
    ["Codeunit 1 60000 60009 X", "", "Module Objects and Permissions", "junk"]
    (by decide)

/-- C5: the range set starts as exactly the six built-in seed entries, in this
order (TableData 50000-50009 with codes "RIMDX"; Page, Report, Codeunit,
XMLPort and Query each 50000-50099 with codes "X"); building appends the
parsed entries after the seed preserving file order; and the matching
`position` scan returns the first range in stored order satisfying the
covering predicate. -/
theorem seed_order_first_match :
    initialRanges =
      [{ object_type := ObjectType.TableData, quantity := 10,
         range_from := 50000, range_to := 50009, permission := "RIMDX" },
       { object_type := ObjectType.Page, quantity := 100,
         range_from := 50000, range_to := 50099, permission := "X" },
       { object_type := ObjectType.Report, quantity := 100,
         range_from := 50000, range_to := 50099, permission := "X" },
       { object_type := ObjectType.Codeunit, quantity := 100,
         range_from := 50000, range_to := 50099, permission := "X" },
       { object_type := ObjectType.XMLport, quantity := 100,
         range_from := 50000, range_to := 50099, permission := "X" },
       { object_type := ObjectType.Query, quantity := 100,
         range_from := 50000, range_to := 50099, permission := "X" }]
    ∧ (∀ ls, buildRanges ls
        = (parsedRanges ls).map (fun parsed => initialRanges ++ parsed))
    ∧ (∀ (ranges : List ObjectRange) (object : Object) (i : Nat),
        position (fun e => rangeCovers e object) ranges = some i →
        ∃ r, ranges[i]? = some r ∧ rangeCovers r object = true ∧
          ∀ j, j < i → ∀ r', ranges[j]? = some r' →
            rangeCovers r' object = false) := by
  refine ⟨by decide, ?_, ?_⟩
  · intro ls
    unfold buildRanges parsedRanges
    exact foldlM_push_eq_mapM _ _ _
  · intro ranges object i h
    exact position_eq_some_first _ _ _ h

/-- Witness for `seed_order_first_match`: the first-match clause applied to
the seed and the object (Page, 50050, "Customer List"), matched by the seed
entry at index 1. -/
theorem seed_order_first_match_witness :
    ∃ r, initialRanges[1]? = some r
      ∧ rangeCovers r ⟨ObjectType.Page, 50050, "Customer List"⟩ = true
      ∧ ∀ j, j < 1 → ∀ r', initialRanges[j]? = some r' →
          rangeCovers r' ⟨ObjectType.Page, 50050, "Customer List"⟩ = false :=
  seed_order_first_match.2.2 initialRanges
    ⟨ObjectType.Page, 50050, "Customer List"⟩ 1 (by decide)

/-- Membership in the reconciliation output, unfolding the three filters. -/
theorem mem_reconcile_iff (ranges : List ObjectRange) (objects : List Object)
    (o : Object) :
    o ∈ reconcile ranges objects ↔
      o ∈ objects ∧ o.object_type.is_licensed = true
        ∧ (decide (50000 ≤ o.id) && decide (o.id ≤ 99999)) = true
        ∧ (position (fun e => rangeCovers e o) ranges).isNone = true := by
  unfold reconcile
  simp only [List.mem_filter]
  tauto

/-- Counterexample to C1 as stated: with the seed range set and the inventory
consisting of the single object (Table, 50005, "Staging Table"), the object is
not in the violations output, yet no range of the set has matching type and
containing bounds (the object is excluded by the licensed-type filter, not by
coverage). -/
theorem coverage_law_unfiltered_counterexample :
    (⟨ObjectType.Table, 50005, "Staging Table"⟩ : Object) ∉
        reconcile initialRanges [⟨ObjectType.Table, 50005, "Staging Table"⟩]
      ∧ ¬∃ r ∈ initialRanges, r.object_type = ObjectType.Table
          ∧ r.range_from ≤ (50005 : Int) ∧ (50005 : Int) ≤ r.range_to := by
  decide

/-- C1 (amended): for every inventory object that survives the two filters
(licensed type, id within 50000..=99999), the object is absent from the
violations output iff some range in the set has equal type and inclusive
bounds containing its id. -/
theorem coverage_law_filtered :
    ∀ (ranges : List ObjectRange) (objects : List Object) (o : Object),
      o ∈ objects → o.object_type.is_licensed = true →
      50000 ≤ o.id → o.id ≤ 99999 →
      (o ∉ reconcile ranges objects ↔
        ∃ r ∈ ranges, r.object_type = o.object_type
          ∧ r.range_from ≤ o.id ∧ o.id ≤ r.range_to) := by
  intro ranges objects o hmem hlic hlo hhi
  have hchar : o ∈ reconcile ranges objects ↔
      (position (fun e => rangeCovers e o) ranges).isNone = true := by
    rw [mem_reconcile_iff]
    constructor
    · exact fun h => h.2.2.2
    · intro h
      refine ⟨hmem, hlic, ?_, h⟩
      rw [Bool.and_eq_true]
      exact ⟨decide_eq_true hlo, decide_eq_true hhi⟩
  have hpos : (¬ (position (fun e => rangeCovers e o) ranges).isNone = true) ↔
      ∃ r ∈ ranges, rangeCovers r o = true := by
    rw [Option.isNone_iff_eq_none, position_eq_none_iff]
    push_neg
    simp only [Bool.not_eq_false]
  refine Iff.trans (not_congr hchar) (Iff.trans hpos ?_)
  simp only [rangeCovers, Bool.and_eq_true, decide_eq_true_eq]

/-- Witness for `coverage_law_filtered`: the object (Page, 50050,
"Customer List") in a singleton inventory against the seed ranges. -/
theorem coverage_law_filtered_witness :
    (⟨ObjectType.Page, 50050, "Customer List"⟩ : Object) ∉
        reconcile initialRanges [⟨ObjectType.Page, 50050, "Customer List"⟩]
      ↔ ∃ r ∈ initialRanges, r.object_type = ObjectType.Page
          ∧ r.range_from ≤ (50050 : Int) ∧ (50050 : Int) ≤ r.range_to :=
  coverage_law_filtered initialRanges
    [⟨ObjectType.Page, 50050, "Customer List"⟩]
    ⟨ObjectType.Page, 50050, "Customer List"⟩
    (by decide) (by decide) (by decide) (by decide)

/-- C6: an object of an unlicensed type, or with id below 50000 or above
99999, is never in the violations output, whatever the range set and the rest
of the inventory. -/
theorem unlicensed_or_out_of_band_never_violation :
    ∀ (ranges : List ObjectRange) (objects : List Object) (o : Object),
      (o.object_type.is_licensed = false ∨ o.id < 50000 ∨ 99999 < o.id) →
      o ∉ reconcile ranges objects := by
  intro ranges objects o h hmem
  rw [mem_reconcile_iff] at hmem
  obtain ⟨-, hlic, hband, -⟩ := hmem
  rw [Bool.and_eq_true, decide_eq_true_eq, decide_eq_true_eq] at hband
  rcases h with h | h | h
  · rw [hlic] at h
    cases h
  · omega
  · omega

/-- Witness for `unlicensed_or_out_of_band_never_violation`: the object
(Codeunit, 100000, "High") is above the checked band. -/
theorem unlicensed_or_out_of_band_never_violation_witness :
    (⟨ObjectType.Codeunit, 100000, "High"⟩ : Object) ∉
      reconcile initialRanges [⟨ObjectType.Codeunit, 100000, "High"⟩] :=
  unlicensed_or_out_of_band_never_violation initialRanges
    [⟨ObjectType.Codeunit, 100000, "High"⟩]
    ⟨ObjectType.Codeunit, 100000, "High"⟩
    (Or.inr (Or.inr (by decide)))

/-- C7: when the computed violations list is empty, the reporter emits the
single no-violations console notice and writes no CSV artifact. -/
theorem empty_violations_no_csv :
    ∀ (ranges : List ObjectRange) (objects : List Object),
      reconcile ranges objects = [] →
      report (reconcile ranges objects) =
        { console := ["No missing objects found!"], csvFile := none } := by
  intro ranges objects h
  rw [h]
  rfl

/-- Witness for `empty_violations_no_csv`: an empty inventory yields no
violations and no CSV artifact. -/
theorem empty_violations_no_csv_witness :
    report (reconcile initialRanges []) =
      { console := ["No missing objects found!"], csvFile := none } :=
  empty_violations_no_csv initialRanges [] (by rfl)

/-- C8: with at least one violation, the CSV artifact consists of exactly the
fixed 12-column header followed by one comma-joined row per violation in
order, with the literal Direct in all five permission slots, the literal
"50000 - 99999" as the available range, quantity 1 (the source computes
`id - id + 1`), and two trailing zero columns; in particular the violation
(Codeunit, 60000, "Import Engine") yields the console line
"60000 Codeunit\tImport Engine" and the expected CSV row. -/
theorem csv_format_and_scenario_b :
    (∀ missing : List Object, missing ≠ [] →
      (report missing).csvFile = some ("missing-permissions.csv",
        "ObjectType,FromObjectID,ToObjectID,Read,Insert,Modify,Delete,Execute,AvailableRange,Used,ObjectTypeRemaining,CompanyObjectPermissionID"
          :: missing.map (fun object =>
            String.intercalate ","
              [object.object_type.toString, Int.repr object.id,
               Int.repr object.id, "Direct", "Direct", "Direct", "Direct",
               "Direct", "50000 - 99999", "1", "0", "0"])))
    ∧ report [⟨ObjectType.Codeunit, 60000, "Import Engine"⟩]
        = { console := ["60000 Codeunit\tImport Engine",
              "Wrote missing permissions to missing-permissions.csv"],
            csvFile := some ("missing-permissions.csv",
              ["ObjectType,FromObjectID,ToObjectID,Read,Insert,Modify,Delete,Execute,AvailableRange,Used,ObjectTypeRemaining,CompanyObjectPermissionID",
               "Codeunit,60000,60000,Direct,Direct,Direct,Direct,Direct,50000 - 99999,1,0,0"]) } := by
  constructor
  · intro missing hne
    have hmap : missing.map (fun object =>
          String.intercalate ","
            [object.object_type.toString, Int.repr object.id,
             Int.repr object.id, "Direct", "Direct", "Direct", "Direct",
             "Direct", "50000 - 99999", Int.repr (object.id - object.id + 1),
             "0", "0"])
        = missing.map (fun object =>
          String.intercalate ","
            [object.object_type.toString, Int.repr object.id,
             Int.repr object.id, "Direct", "Direct", "Direct", "Direct",
             "Direct", "50000 - 99999", "1", "0", "0"]) := by
      refine List.map_congr_left (fun o _ => ?_)
      have h1 : o.id - o.id + 1 = 1 := by ring
      rw [h1]
      rfl
    have hem : missing.isEmpty = false := by
      cases missing with
      | nil => exact absurd rfl hne
      | cons a as => rfl
    unfold report
    rw [hem, if_neg Bool.false_ne_true, hmap]
  · decide

/-- Witness for `csv_format_and_scenario_b`: the CSV clause applied to the
singleton violation list of scenario B. -/
theorem csv_format_and_scenario_b_witness :
    (report [⟨ObjectType.Codeunit, 60000, "Import Engine"⟩]).csvFile
      = some ("missing-permissions.csv",
        "ObjectType,FromObjectID,ToObjectID,Read,Insert,Modify,Delete,Execute,AvailableRange,Used,ObjectTypeRemaining,CompanyObjectPermissionID"
          :: [(⟨ObjectType.Codeunit, 60000, "Import Engine"⟩ : Object)].map
            (fun object =>
              String.intercalate ","
                [object.object_type.toString, Int.repr object.id,
                 Int.repr object.id, "Direct", "Direct", "Direct", "Direct",
                 "Direct", "50000 - 99999", "1", "0", "0"])) :=
  csv_format_and_scenario_b.1 [⟨ObjectType.Codeunit, 60000, "Import Engine"⟩]
    (by decide)

/-- Counterexample to C2 as stated: with a license text containing no
"Object Assignment" line and a worksheet holding the object
(Codeunit, 60000, "Import Engine"), the run does not abort: it processes the
inventory, computes a violation, and writes the CSV artifact. -/
theorem missing_marker_no_abort_counterexample :
    runProgram ["VOID LICENSE", "Windows 1252"]
        (some (Except.ok [[Cell.str "Type", Cell.str "ID", Cell.str "Name"],
            [Cell.str "Codeunit", Cell.int 60000, Cell.str "Import Engine"]]))
      = Except.ok
          { console := ["60000 Codeunit\tImport Engine",
              "Wrote missing permissions to missing-permissions.csv"],
            csvFile := some ("missing-permissions.csv",
              ["ObjectType,FromObjectID,ToObjectID,Read,Insert,Modify,Delete,Execute,AvailableRange,Used,ObjectTypeRemaining,CompanyObjectPermissionID",
               "Codeunit,60000,60000,Direct,Direct,Direct,Direct,Direct,50000 - 99999,1,0,0"]) } := by
  decide

/-- C2 (amended): when the license text has no line equal to
"Object Assignment", parsing contributes no entries — the range set is exactly
the built-in seed — and the run proceeds, without aborting, to inventory
processing and reporting. -/
theorem missing_marker_seed_only :
    ∀ (ls : List String) (ws : Option (Except String (List (List Cell)))),
      (∀ l ∈ ls, l ≠ "Object Assignment") →
      buildRanges ls = Except.ok initialRanges
        ∧ runProgram ls ws
            = (loadObjects ws).map
                (fun objects => report (reconcile initialRanges objects)) := by
  intro ls ws h
  have hwin : windowOf ls = [] := by
    unfold windowOf
    have hd : ls.dropWhile (fun p => decide (p ≠ "Object Assignment")) = [] :=
      List.dropWhile_eq_nil_iff.mpr (fun x hx => decide_eq_true (h x hx))
    rw [hd]
    rfl
  have hbr : buildRanges ls = Except.ok initialRanges := by
    unfold buildRanges
    rw [hwin]
    rfl
  refine ⟨hbr, ?_⟩
  unfold runProgram
  rw [hbr, except_bind_ok]
  cases hlo : loadObjects ws with
  | error e => rw [except_bind_error, except_map_error]
  | ok objects => rw [except_bind_ok, except_map_ok]

/-- Witness for `missing_marker_seed_only`: a concrete marker-less license
text and an absent worksheet range. -/
theorem missing_marker_seed_only_witness :
    buildRanges ["VOID LICENSE"] = Except.ok initialRanges
      ∧ runProgram ["VOID LICENSE"] none
          = (loadObjects none).map
              (fun objects => report (reconcile initialRanges objects)) :=
  missing_marker_seed_only ["VOID LICENSE"] none (by decide)

/-- Counterexample to C4 as stated: the license line "Codeunit 1 100 50 X"
constructs (through `ObjectRange::new`, with no validation) a range with
`range_from = 100 > 50 = range_to`, so not every constructed `ObjectRange`
satisfies `range_from ≤ range_to`. -/
theorem range_invariant_counterexample :
    buildRanges ["Object Assignment", "a", "b", "c", "d",
        "Codeunit 1 100 50 X", "Module Objects and Permissions"]
      = Except.ok (initialRanges ++
          [{ object_type := ObjectType.Codeunit, quantity := -49,
             range_from := 100, range_to := 50, permission := "X" }])
      ∧ ¬(({ object_type := ObjectType.Codeunit, quantity := -49,
             range_from := 100, range_to := 50,
             permission := "X" } : ObjectRange).range_from
          ≤ ({ object_type := ObjectType.Codeunit, quantity := -49,
               range_from := 100, range_to := 50,
               permission := "X" } : ObjectRange).range_to) := by
  decide

/-- C4 (amended): every `ObjectRange` constructed by `ObjectRange::new` — and
hence every seed or parsed entry — satisfies
`quantity = range_to - range_from + 1`; the six seed entries additionally
satisfy `range_from ≤ range_to`, but that inequality is not validated for
parsed entries and can fail for them. -/
theorem range_quantity_invariant :
    (∀ (object_type : String) (range_from range_to : Int) (permission : String)
        (r : ObjectRange),
        ObjectRange.new object_type range_from range_to permission = some r →
        r.quantity = r.range_to - r.range_from + 1)
    ∧ (∀ r ∈ initialRanges,
        r.quantity = r.range_to - r.range_from + 1 ∧ r.range_from ≤ r.range_to)
    ∧ (∀ (ls : List String) (rs : List ObjectRange),
        buildRanges ls = Except.ok rs →
        ∀ r ∈ rs, r.quantity = r.range_to - r.range_from + 1) := by
  refine ⟨?_, by decide, ?_⟩
  · intro ot f t p r h
    rcases Option.map_eq_some'.mp h with ⟨ty, _, hr⟩
    subst hr
    rfl
  · intro ls rs h
    unfold buildRanges at h
    rw [foldlM_push_eq_mapM] at h
    cases hm : (windowOf ls).mapM parseDataLine with
    | error e =>
        rw [hm, except_map_error] at h
        exact Except.noConfusion h
    | ok parsed =>
        rw [hm, except_map_ok] at h
        injection h with h
        subst h
        intro r hr
        have hseed2 : ∀ r ∈ initialRanges,
            r.quantity = r.range_to - r.range_from + 1 := by decide
        rcases List.mem_append.mp hr with hseed | hparsed
        · exact hseed2 r hseed
        · obtain ⟨line, _, hok⟩ :=
            mapM_ok_mem parseDataLine (windowOf ls) parsed hm r hparsed
          exact parseTokens_ok_quantity (splitWhitespace line) r hok

/-- Witness for `range_quantity_invariant`: the quantity identity at the
parsed range of the counterexample line. -/
theorem range_quantity_invariant_witness :
    ({ object_type := ObjectType.Codeunit, quantity := -49, range_from := 100,
       range_to := 50, permission := "X" } : ObjectRange).quantity
      = ({ object_type := ObjectType.Codeunit, quantity := -49,
           range_from := 100, range_to := 50,
           permission := "X" } : ObjectRange).range_to
        - ({ object_type := ObjectType.Codeunit, quantity := -49,
             range_from := 100, range_to := 50,
             permission := "X" } : ObjectRange).range_from + 1 :=
  range_quantity_invariant.1 "Codeunit" 100 50 "X"
    { object_type := ObjectType.Codeunit, quantity := -49, range_from := 100,
      range_to := 50, permission := "X" } (by decide)

/-- C9 (code/claim divergence at the worksheet step): when `worksheet_range`
for the selected sheet yields `None` or an error, the `if let Some(Ok(r))` of
src/main.rs line 243 silently skips inventory loading instead of aborting:
the object list stays empty and the run completes successfully, printing the
no-violations notice — it does not abort with a non-zero outcome. -/
theorem worksheet_failure_silent_success :
    loadObjects (some (Except.error "worksheet range error")) = Except.ok []
      ∧ loadObjects none = Except.ok []
      ∧ runProgram ["Object Assignment", "a", "b", "c", "d",
            "Module Objects and Permissions"]
          (some (Except.error "worksheet range error"))
        = Except.ok
            { console := ["No missing objects found!"], csvFile := none } := by
  decide
